import Mathlib

/-
  Verification of the saito-rust consensus core against its specification.

  The Rust sources under src/ are shallowly embedded below: byte strings
  become `List Nat`, u64 / usize become `Nat` (no arithmetic in the embedded
  code paths can overflow a u64 except where noted), vectors become `List`,
  and the AHashMap utxoset becomes an association list.  Code of the
  repository that is not under src/ (crypto.rs, transaction.rs, slip.rs,
  burnfee.rs, golden_ticket.rs, merkle.rs and the newer blockchain.rs that
  block.rs compiles against) is modelled from the spec; each such definition
  carries a doc comment starting with: Modelled from the spec.
-/

/-- Byte strings (hashes, serialized data, public keys) are lists of naturals. -/
abbrev Bytes := List Nat

/-- Zero 32-byte hash, the `[0; 32]` literal of the source. -/
def zero32 : Bytes := List.replicate 32 0

/-- Big-endian interpretation of a byte string as a natural number; this is
    what `U256::from_big_endian` computes on a 32-byte input. -/
def bytesToNatBE (l : Bytes) : Nat := l.foldl (fun a b => a * 256 + b) 0

/-- Slip types from slip.rs (the enum is fixed by the spec data model). -/
inductive SlipType where
  | Normal
  | StakerDeposit
  | StakerOutput
  | MinerOutput
  | RouterOutput
  | VIP
  | ATR
deriving DecidableEq

/-- Transaction types from transaction.rs (fixed by the spec data model). -/
inductive TransactionType where
  | Normal
  | Fee
  | GoldenTicket
  | ATR
  | VIP
  | StakerDeposit
deriving DecidableEq

/-- Slip (UTXO) as in slip.rs / the spec data model: owner key, uuid,
    amount in nolan, type and ordinal. -/
structure Slip where
  publickey : Bytes
  uuid : Bytes
  amount : Nat
  slip_type : SlipType
  slip_ordinal : Nat
deriving DecidableEq

/-- Default slip, Slip::new. -/
def Slip.new : Slip :=
  { publickey := [], uuid := [], amount := 0
    slip_type := SlipType.Normal, slip_ordinal := 0 }

/-- Modelled from the spec: the slip's utxoset key is the deterministic
    concatenation of its fields (slip.rs is not under src/); two slips with
    equal key are identical, so the key is modelled as the tuple of fields. -/
def Slip.utxoset_key (s : Slip) : Bytes × Bytes × Nat × SlipType × Nat :=
  (s.publickey, s.uuid, s.amount, s.slip_type, s.slip_ordinal)

/-- Keys of the UTXO set. -/
abbrev UtxoKey := Bytes × Bytes × Nat × SlipType × Nat

/-- The UTXO set `AHashMap<SaitoUTXOSetKey, u64>` as an association list. -/
abbrev Utxoset := List (UtxoKey × Nat)

/-- Lookup in the association-list UTXO set (first binding wins, as for a map). -/
def utxoLookup (u : Utxoset) (k : UtxoKey) : Option Nat :=
  match u with
  | [] => none
  | (k0, v) :: rest => if k0 = k then some v else utxoLookup rest k

/-- Modelled from the spec: Slip::validate from the missing slip.rs —
    the amount is positive and the slip's utxoset entry marks it spendable.
    The spec's three states are encoded in the u64 value: no entry is
    unknown, a value of at least 1 is spendable, 0 is spent.  The spec's
    side condition on the spendable block id is contextual and does not
    reach this call site, which receives only the utxoset. -/
def Slip.validate (u : Utxoset) (s : Slip) : Bool :=
  decide (0 < s.amount) &&
    (match utxoLookup u s.utxoset_key with
     | some v => decide (1 ≤ v)
     | none => false)

/-- Transaction as in transaction.rs / the spec data model.  The derived
    metadata fields (total_fees, cumulative_fees, hash_for_signature) are
    stored on the transaction exactly as in the source, where they are
    filled in by generate_metadata before the block-level code reads them. -/
structure Tx where
  timestamp : Nat
  inputs : List Slip
  outputs : List Slip
  ttype : TransactionType
  message : Bytes
  signature : Bytes
  total_fees : Nat
  cumulative_fees : Nat
  hash_for_signature : Option Bytes
deriving DecidableEq

/-- Default transaction, Transaction::new. -/
def Tx.new : Tx :=
  { timestamp := 0, inputs := [], outputs := [], ttype := TransactionType.Normal
    message := [], signature := [], total_fees := 0, cumulative_fees := 0
    hash_for_signature := none }

/-- Transaction::is_fee_transaction, a transaction-type test. -/
def Tx.is_fee_transaction (t : Tx) : Bool := t.ttype = TransactionType.Fee

/-- Transaction::is_golden_ticket, a transaction-type test. -/
def Tx.is_golden_ticket (t : Tx) : Bool := t.ttype = TransactionType.GoldenTicket

/-- Block as in block.rs.  The fee_transaction_idx and golden_ticket_idx
    fields are read by staking.rs through getters whose definitions are not
    under src/; they are modelled as stored fields, matching the
    DataToValidate indices of the spec. -/
structure Block where
  id : Nat
  timestamp : Nat
  previous_block_hash : Bytes
  creator : Bytes
  merkle_root : Bytes
  signature : Bytes
  treasury : Nat
  burnfee : Nat
  difficulty : Nat
  transactions : List Tx
  hash : Bytes
  total_fees : Nat
  routing_work_for_creator : Nat
  lc : Bool
  has_golden_ticket : Bool
  has_fee_transaction : Bool
  total_rebroadcast_slips : Nat
  total_rebroadcast_nolan : Nat
  rebroadcast_hash : Bytes
  fee_transaction_idx : Nat
  golden_ticket_idx : Nat
deriving DecidableEq

/-- Default block, Block::new. -/
def Block.new : Block :=
  { id := 0, timestamp := 0, previous_block_hash := zero32, creator := []
    merkle_root := zero32, signature := [], treasury := 0, burnfee := 0
    difficulty := 0, transactions := [], hash := zero32, total_fees := 0
    routing_work_for_creator := 0, lc := false, has_golden_ticket := false
    has_fee_transaction := false, total_rebroadcast_slips := 0
    total_rebroadcast_nolan := 0, rebroadcast_hash := zero32
    fee_transaction_idx := 0, golden_ticket_idx := 0 }

/-- Modelled from the spec: the Blockchain that block.rs compiles against
    (its blockchain.rs is not under src/; the blockchain.rs that is under
    src/ is an earlier revision embedded separately below).  It carries the
    block index keyed by hash, the blockring map from block id to the
    longest-chain block hash at that id, and the UTXO set. -/
structure Chain where
  blocks : List (Bytes × Block)
  blockring : Nat → Bytes
  utxoset : Utxoset

/-- Lookup of a block by hash in the chain's block index. -/
def lookupBlock (c : Chain) (h : Bytes) : Option Block :=
  match c.blocks.find? (fun p => p.1 = h) with
  | some p => some p.2
  | none => none

/-- Modelled from the spec: the functions of crypto.rs, transaction.rs and
    burnfee.rs that block.rs and staking.rs call but whose definitions are
    not under src/.  They are kept abstract as a bundle of parameters:
    hash is SHA-256; serializeForSignature and serializeForNet are the
    canonical transaction serializations; deserializeFromNet inverts the
    latter; getWinningRoutingNode is the weighted routing-path lottery
    returning a public key; generateTxMetadata is
    Transaction::generate_metadata for a given creator key;
    burnfeeForNext and routingWorkNeeded are the two burn-fee functions of
    prev burnfee, current timestamp and previous timestamp; txValidate is
    Transaction::validate against the UTXO set. -/
structure ExtFns where
  hash : Bytes → Bytes
  serializeForSignature : Tx → Bytes
  serializeForNet : Tx → Bytes
  deserializeFromNet : Bytes → Tx
  getWinningRoutingNode : Tx → Bytes → Bytes
  generateTxMetadata : Bytes → Tx → Tx
  burnfeeForNext : Nat → Nat → Nat → Nat
  routingWorkNeeded : Nat → Nat → Nat → Nat
  txValidate : Utxoset → Tx → Bool

/-- Golden-ticket payload carried in a GoldenTicket transaction's message. -/
structure GoldenTicketData where
  random : Bytes
  publickey : Bytes
  target : Bytes
deriving DecidableEq

/-- Modelled from the spec: GoldenTicket::deserialize_for_transaction from
    the missing golden_ticket.rs, following the wire layout
    random 32 bytes, publickey 33 bytes, target 32 bytes. -/
def parse_golden_ticket (message : Bytes) : GoldenTicketData :=
  { random := message.take 32
    publickey := (message.drop 32).take 33
    target := (message.drop 65).take 32 }

/-- Modelled from the spec: Transaction::generate_rebroadcast_transaction
    from the missing transaction.rs — an ATR transaction whose message is
    the canonical serialization of the original transaction and whose
    single output pays the original owner the amount minus the fee. -/
def generate_rebroadcast_transaction (E : ExtFns) (original : Tx) (output : Slip)
    (fee : Nat) : Tx :=
  { Tx.new with
    ttype := TransactionType.ATR
    message := E.serializeForNet original
    outputs := [{ Slip.new with
                  publickey := output.publickey
                  amount := output.amount - fee
                  slip_type := SlipType.ATR }] }

/-- Accumulator of the ATR section of Block::generate_data_to_validate:
    the rebroadcast transactions plus the three running totals and the
    running rebroadcast hash. -/
structure AtrResult where
  rebroadcasts : List Tx
  slips : Nat
  nolan : Nat
  fees : Nat
  rhash : Bytes
deriving DecidableEq

/-- Initial ATR accumulator (all totals zero, hash zeroed out). -/
def atr_init : AtrResult := { rebroadcasts := [], slips := 0, nolan := 0, fees := 0, rhash := zero32 }

/-- Body of the inner ATR loop of generate_data_to_validate
    (block.rs lines 530 to 567) for a single output of the pruned block:
    a spendable output above 200 000 000 nolan is rebroadcast and counted,
    a spendable output at or below that amount is collected as dust fee. -/
def atr_step (E : ExtFns) (u : Utxoset) (transaction : Tx) (acc : AtrResult)
    (output : Slip) : AtrResult :=
  if Slip.validate u output then
    if 200000000 < output.amount then
      let rebroadcast_transaction :=
        generate_rebroadcast_transaction E transaction output 200000000
      { rebroadcasts := acc.rebroadcasts ++ [rebroadcast_transaction]
        slips := acc.slips + 1
        nolan := acc.nolan + output.amount
        fees := acc.fees + 200000000
        rhash := E.hash (acc.rhash ++ E.serializeForSignature rebroadcast_transaction) }
    else
      { acc with fees := acc.fees + output.amount }
  else acc

/-- The ATR loop over the outputs of one pruned transaction. -/
def atr_outputs (E : ExtFns) (u : Utxoset) (transaction : Tx) :
    List Slip → AtrResult → AtrResult
  | [], acc => acc
  | o :: rest, acc => atr_outputs E u transaction rest (atr_step E u transaction acc o)

/-- The ATR loop over all transactions of the pruned block
    (block.rs lines 529 to 569). -/
def atr_scan (E : ExtFns) (u : Utxoset) : List Tx → AtrResult → AtrResult
  | [], acc => acc
  | tx :: rest, acc => atr_scan E u rest (atr_outputs E u tx tx.outputs acc)

/-- DataToValidate from block.rs: the consensus values both the producer
    and the validator compute from the block and the chain. -/
structure DataToValidate where
  fee_transaction : Option Tx
  ft_num : Nat
  ft_idx : Option Nat
  gt_num : Nat
  gt_idx : Option Nat
  expected_difficulty : Nat
  rebroadcasts : List Tx
  total_rebroadcast_slips : Nat
  total_rebroadcast_nolan : Nat
  total_rebroadcast_fees_nolan : Nat
  rebroadcast_hash : Bytes
deriving DecidableEq

/-- DataToValidate::new, all fields zeroed. -/
def DataToValidate.new : DataToValidate :=
  { fee_transaction := none, ft_num := 0, ft_idx := none, gt_num := 0
    gt_idx := none, expected_difficulty := 0, rebroadcasts := []
    total_rebroadcast_slips := 0, total_rebroadcast_nolan := 0
    total_rebroadcast_fees_nolan := 0, rebroadcast_hash := zero32 }

/-- Installation of the ATR totals into the consensus values
    (block.rs lines 571 to 574; when the pruned block is absent the zero
    accumulator leaves the fields at their zeroed initial values). -/
def assemble_cv (a : AtrResult) : DataToValidate :=
  { DataToValidate.new with
    rebroadcasts := a.rebroadcasts
    total_rebroadcast_slips := a.slips
    total_rebroadcast_nolan := a.nolan
    total_rebroadcast_fees_nolan := a.fees
    rebroadcast_hash := a.rhash }

/-- Accumulator of the fee-and-index sweep of generate_data_to_validate. -/
structure CountResult where
  total_fees : Nat
  ft_num : Nat
  ft_idx : Option Nat
  gt_num : Nat
  gt_idx : Option Nat
deriving DecidableEq

/-- The sweep over the block's transactions counting total fees and the
    fee-transaction and golden-ticket indices (block.rs lines 589 to 607).
    total_fees is seeded with the ATR fees (line 582). -/
def count_scan : List Tx → Nat → CountResult → CountResult
  | [], _, acc => acc
  | transaction :: rest, idx, acc =>
    let acc :=
      if !transaction.is_fee_transaction then
        { acc with total_fees := acc.total_fees + transaction.total_fees }
      else
        { acc with ft_num := acc.ft_num + 1, ft_idx := some idx }
    let acc :=
      if transaction.is_golden_ticket then
        { acc with gt_num := acc.gt_num + 1, gt_idx := some idx }
      else acc
    count_scan rest (idx + 1) acc

/-- The walk of block.rs lines 698 to 706 selecting the winning normal
    transaction: starting from transactions[0], each transaction whose
    cumulative_fees do not exceed the winning nolan becomes the current
    winner, and the walk stops at the first transaction whose
    cumulative_fees exceed it. -/
def winning_tx_walk (winning_nolan_in_fees : Nat) (winning_tx : Tx) : List Tx → Tx
  | [] => winning_tx
  | transaction :: rest =>
    if winning_nolan_in_fees < transaction.cumulative_fees then winning_tx
    else winning_tx_walk winning_nolan_in_fees transaction rest

/-- The winning normal transaction of generate_data_to_validate
    (block.rs lines 694 to 708).  The unused source variable
    winning_normal_tx_nolan (the winning nolan minus the total rebroadcast
    fees) does not influence the walk. -/
def winning_normal_tx (transactions : List Tx) (winning_nolan_in_fees : Nat) : Tx :=
  winning_tx_walk winning_nolan_in_fees (transactions.headD Tx.new) transactions

/-- Selection procedure as the spec words it, written for comparison with
    winning_normal_tx: walk the transactions in order and return the first
    whose cumulative_fees exceed the winning nolan minus the total
    rebroadcast fees, with transactions[0] as the fallback. -/
def spec_winning_normal_tx (transactions : List Tx) (winning_nolan_in_fees : Nat)
    (total_rebroadcast_fees_nolan : Nat) : Tx :=
  match transactions.find?
      (fun t => winning_nolan_in_fees - total_rebroadcast_fees_nolan < t.cumulative_fees) with
  | some t => t
  | none => transactions.headD Tx.new

/-- Payments section of generate_data_to_validate (block.rs lines 613 to
    768): when a golden ticket is present and the total fees are nonzero,
    pick the winning transaction, derive the winning router and miner, and
    record the two-output fee transaction; the fee and golden-ticket
    indices and counts are recorded whenever a golden ticket is present.
    When the winner is an ATR transaction and the rebroadcast vector is
    empty the source panics on an out-of-range index; the embedding then
    reads the default transaction. -/
def payments (E : ExtFns) (self : Block) (a : AtrResult) (c : CountResult)
    (cv : DataToValidate) : DataToValidate :=
  match c.gt_idx with
  | none => cv
  | some gt_idx =>
    let golden_ticket := parse_golden_ticket (self.transactions.getD gt_idx Tx.new).message
    let miner_random := golden_ticket.random
    let cv :=
      if c.total_fees = 0 then cv
      else
        let winning_nolan_in_fees := bytesToNatBE miner_random % c.total_fees
        let winning_tx :=
          if winning_nolan_in_fees < a.fees then
            let winning_atr_tx := bytesToNatBE miner_random % cv.rebroadcasts.length
            E.deserializeFromNet (cv.rebroadcasts.getD winning_atr_tx Tx.new).message
          else
            winning_normal_tx self.transactions winning_nolan_in_fees
        let random_number2 := E.hash miner_random
        let router_publickey := E.getWinningRoutingNode winning_tx random_number2
        let miner_publickey := golden_ticket.publickey
        let miner_payment := c.total_fees / 2
        let router_payment := c.total_fees - miner_payment
        let output1 : Slip :=
          { Slip.new with
            publickey := miner_publickey
            amount := miner_payment
            slip_type := SlipType.MinerOutput
            slip_ordinal := 0 }
        let output2 : Slip :=
          { Slip.new with
            publickey := router_publickey
            amount := router_payment
            slip_type := SlipType.RouterOutput
            slip_ordinal := 1 }
        let transaction : Tx :=
          { Tx.new with ttype := TransactionType.Fee, outputs := [output1, output2] }
        { cv with fee_transaction := some transaction }
    { cv with ft_idx := c.ft_idx, ft_num := c.ft_num, gt_idx := c.gt_idx, gt_num := c.gt_num }

/-- Difficulty section of generate_data_to_validate (block.rs lines 773 to
    784): when the previous block is in the index, the expected difficulty
    decrements (floored at the zeroed initial value) when neither block
    has a golden ticket, increments when both do, and carries over
    otherwise. -/
def apply_difficulty (chain : Chain) (self : Block) (cv : DataToValidate) : DataToValidate :=
  match lookupBlock chain self.previous_block_hash with
  | some previous_block =>
    let difficulty := previous_block.difficulty
    if !previous_block.has_golden_ticket && !self.has_golden_ticket then
      if 0 < difficulty then { cv with expected_difficulty := difficulty - 1 } else cv
    else if previous_block.has_golden_ticket && self.has_golden_ticket then
      { cv with expected_difficulty := difficulty + 1 }
    else
      { cv with expected_difficulty := difficulty }
  | none => cv

/-- Block::generate_data_to_validate (block.rs lines 494 to 787): the ATR
    scan over the longest-chain block two behind this one, the fee sweep
    seeded with the ATR fees, the payments section and the difficulty
    section. -/
def generate_data_to_validate (E : ExtFns) (chain : Chain) (self : Block) : DataToValidate :=
  let a :=
    if 2 < self.id then
      match lookupBlock chain (chain.blockring (self.id - 2)) with
      | some pruned_block => atr_scan E chain.utxoset pruned_block.transactions atr_init
      | none => atr_init
    else atr_init
  let cv := assemble_cv a
  let c := count_scan self.transactions 0
    { total_fees := a.fees, ft_num := 0, ft_idx := none, gt_num := 0, gt_idx := none }
  apply_difficulty chain self (payments E self a c cv)

/-- Pairing step of the merkle while-loop (block.rs lines 464 to 474): the
    freshly hashed layer is consumed two nodes at a time, padding a
    trailing odd node with the zero hash. -/
def pairUp : List Bytes → List (Bytes × Bytes)
  | [] => []
  | [a] => [(a, zero32)]
  | a :: b :: rest => (a, b) :: pairUp rest

/-- Leaf layer of Block::generate_merkle_root (block.rs lines 436 to 446):
    leaf i pairs transaction hash i with hash i+1 (the last leaf is padded
    with the zero hash).  The source loop steps by one, so every interior
    transaction hash appears in two leaves. -/
def overlapPairs : List Bytes → List (Bytes × Bytes)
  | [] => []
  | [a] => [(a, zero32)]
  | a :: b :: rest => (a, b) :: overlapPairs (b :: rest)

/-- While loop of Block::generate_merkle_root (block.rs lines 452 to 488):
    hash the pairs of the current layer, pair the results, and repeat while
    more than one node remains; the hash of the single remaining pair is
    the root.  The fuel argument bounds the iteration count; since every
    round at least halves the layer, an initial fuel of layer length plus
    one is never exhausted.  On an empty transaction list the source
    indexes an empty vector and panics; the embedding returns the zero
    hash there. -/
def merkle_loop (H : Bytes → Bytes) : Nat → List (Bytes × Bytes) → Bytes
  | 0, _ => zero32
  | fuel + 1, layer =>
    let hashed := layer.map fun p => H (p.1 ++ p.2)
    let next := pairUp hashed
    if 1 < next.length then merkle_loop H fuel next
    else
      match next with
      | [] => zero32
      | p :: _ => H (p.1 ++ p.2)

/-- Block::generate_merkle_root (block.rs lines 421 to 489) over the
    transactions' stored signature hashes. -/
def generate_merkle_root (E : ExtFns) (transactions : List Tx) : Bytes :=
  let tx_sig_hashes := transactions.map fun tx => tx.hash_for_signature.getD []
  merkle_loop E.hash (tx_sig_hashes.length + 1) (overlapPairs tx_sig_hashes)

/-- Merkle-root check of Block::validate (block.rs lines 1011 to 1016):
    the block fails only when the stored root is the zero hash and differs
    from the recomputed root; the source combines the two tests with a
    logical and. -/
def merkle_check_passes (E : ExtFns) (self : Block) : Bool :=
  !(self.merkle_root == zero32 &&
    !(self.merkle_root == generate_merkle_root E self.transactions))

/-- Count of leading zero bits of a single byte. -/
def leading_zero_bits_byte (b : Nat) : Nat := if b = 0 then 8 else 7 - Nat.log2 b

/-- Count of leading zero bits of a byte string. -/
def leading_zero_bits : Bytes → Nat
  | [] => 0
  | b :: rest => if b = 0 then 8 + leading_zero_bits rest else leading_zero_bits_byte b

/-- Modelled from the spec: GoldenTicket::generate_solution from the
    missing golden_ticket.rs — the hash of the random bytes concatenated
    with the miner public key. -/
def generate_solution (E : ExtFns) (random publickey : Bytes) : Bytes :=
  E.hash (random ++ publickey)

/-- Modelled from the spec: GoldenTicket::is_valid_solution from the
    missing golden_ticket.rs — the leading-zero-bit count of the solution
    hash is at least the previous block's difficulty. -/
def is_valid_solution (_previous_block_hash : Bytes) (solution : Bytes)
    (difficulty : Nat) : Bool :=
  decide (difficulty ≤ leading_zero_bits solution)

/-- Previous-block section of Block::validate (block.rs lines 921 to
    1004): burn fee, routing work and golden-ticket solution are checked
    when the previous block is in the index; otherwise the section is
    skipped. -/
def prev_block_checks (E : ExtFns) (chain : Chain) (self : Block)
    (cv : DataToValidate) : Bool :=
  match lookupBlock chain self.previous_block_hash with
  | some previous_block =>
    if !(E.burnfeeForNext previous_block.burnfee self.timestamp
          previous_block.timestamp == self.burnfee) then false
    else if self.routing_work_for_creator <
        E.routingWorkNeeded previous_block.burnfee self.timestamp
          previous_block.timestamp then false
    else
      match cv.gt_idx with
      | some gt_idx =>
        let golden_ticket :=
          parse_golden_ticket (self.transactions.getD gt_idx Tx.new).message
        is_valid_solution previous_block.hash
          (generate_solution E golden_ticket.random golden_ticket.publickey)
          previous_block.difficulty
      | none => true
  | none => true

/-- Fee-transaction check of Block::validate (block.rs lines 1028 to
    1056): when the consensus values carry both a fee index and a fee
    transaction, the latter's metadata is regenerated, its output uuids
    are rewritten to its signing hash, and the hashes of the serialized
    consensus fee transaction and of the block's fee transaction must
    match. -/
def fee_tx_check_passes (E : ExtFns) (self : Block) (cv : DataToValidate) : Bool :=
  match cv.ft_idx, cv.fee_transaction with
  | some ft_idx, some fee_transaction =>
    let fee_transaction := E.generateTxMetadata self.creator fee_transaction
    let fee_transaction_hash_for_signature := fee_transaction.hash_for_signature.getD []
    let fee_transaction :=
      { fee_transaction with
        outputs := fee_transaction.outputs.map
          fun o => { o with uuid := fee_transaction_hash_for_signature } }
    E.hash (E.serializeForSignature fee_transaction) ==
      E.hash (E.serializeForSignature (self.transactions.getD ft_idx Tx.new))
  | _, _ => true

/-- Block::validate (block.rs lines 888 to 1136) as the conjunction of its
    early-return checks in source order: previous-block section, merkle
    root, fee transaction, difficulty, the three ATR comparisons, and the
    per-transaction validation. -/
def block_validate (E : ExtFns) (chain : Chain) (utxoset : Utxoset)
    (self : Block) : Bool :=
  let cv := generate_data_to_validate E chain self
  prev_block_checks E chain self cv &&
  merkle_check_passes E self &&
  fee_tx_check_passes E self cv &&
  (cv.expected_difficulty == self.difficulty) &&
  (cv.total_rebroadcast_slips == self.total_rebroadcast_slips) &&
  (cv.total_rebroadcast_nolan == self.total_rebroadcast_nolan) &&
  (cv.rebroadcast_hash == self.rebroadcast_hash) &&
  self.transactions.all (fun tx => E.txValidate utxoset tx)

/-- Expected-difficulty rule of the spec and of block.rs lines 773 to 784,
    as a function of the previous and the current block: decrement floored
    at zero when neither has a golden ticket, increment when both do,
    carry over otherwise. -/
def expected_difficulty_rule (previous_block self : Block) : Nat :=
  if !previous_block.has_golden_ticket && !self.has_golden_ticket then
    if 0 < previous_block.difficulty then previous_block.difficulty - 1 else 0
  else if previous_block.has_golden_ticket && self.has_golden_ticket then
    previous_block.difficulty + 1
  else previous_block.difficulty

/-- Staking pool of staking.rs: deposits, stakers and pending slips. -/
structure Staking where
  deposits : List Slip
  stakers : List Slip
  pending : List Slip
deriving DecidableEq

/-- Staking::new, all three vectors empty. -/
def Staking.new : Staking := { deposits := [], stakers := [], pending := [] }

/-- Modelled from the spec: the GENESIS_PERIOD constant imported by
    staking.rs from the newer blockchain.rs, which is not under src/; the
    spec's staker-payout scenario fixes it at 10, consistent with the
    staking_table_test expectations in staking.rs. -/
def GENESIS_PERIOD : Nat := 10

/-- Sum of the amounts of a list of slips. -/
def sumAmounts (l : List Slip) : Nat := (l.map Slip.amount).sum

/-- Staking::add_deposit, a push. -/
def Staking.add_deposit (st : Staking) (slip : Slip) : Staking :=
  { st with deposits := st.deposits ++ [slip] }

/-- Staking::add_staker, a push. -/
def Staking.add_staker (st : Staking) (slip : Slip) : Staking :=
  { st with stakers := st.stakers ++ [slip] }

/-- Staking::add_pending, a push. -/
def Staking.add_pending (st : Staking) (slip : Slip) : Staking :=
  { st with pending := st.pending ++ [slip] }

/-- Removal of the first slip whose utxoset key matches, as in the three
    Staking::remove functions (the returned bool of the source is unused
    by on_chain_reorganization). -/
def removeSlipByKey : List Slip → Slip → List Slip
  | [], _ => []
  | x :: rest, s =>
    if x.utxoset_key = s.utxoset_key then rest else x :: removeSlipByKey rest s

/-- Staking::remove_deposit on the state. -/
def Staking.remove_deposit (st : Staking) (slip : Slip) : Staking :=
  { st with deposits := removeSlipByKey st.deposits slip }

/-- Staking::remove_staker on the state. -/
def Staking.remove_staker (st : Staking) (slip : Slip) : Staking :=
  { st with stakers := removeSlipByKey st.stakers slip }

/-- Staking::remove_pending on the state. -/
def Staking.remove_pending (st : Staking) (slip : Slip) : Staking :=
  { st with pending := removeSlipByKey st.pending slip }

/-- Staking::find_winning_staker (staking.rs lines 47 to 64): the staker
    at the big-endian random number modulo the staker count. -/
def find_winning_staker (st : Staking) (random_number : Bytes) : Option Slip :=
  if st.stakers.length = 0 then none
  else some (st.stakers.getD (bytesToNatBE random_number % st.stakers.length) Slip.new)

/-- Staking::reset_staker_table (staking.rs lines 77 to 153): merge
    pending then deposits into the stakers, clear both, and when the merged
    pool is non-empty re-type every staker as StakerOutput and raise its
    amount by its share of the per-block payout, using integer division
    throughout.  The three returned slip vectors are always empty in the
    source.  On a pool whose average stake is zero the source divides by
    zero inside U256 arithmetic and panics; Nat division makes the profit
    zero there. -/
def reset_staker_table (st : Staking) (staking_treasury : Nat) :
    Staking × (List Slip × List Slip × List Slip) :=
  let stakers := st.stakers ++ st.pending ++ st.deposits
  if stakers.length = 0 then
    ({ deposits := [], stakers := stakers, pending := [] }, ([], [], []))
  else
    let staking_payout_per_block := staking_treasury / GENESIS_PERIOD
    let stakers := stakers.map fun s => { s with slip_type := SlipType.StakerOutput }
    let total_staked := sumAmounts stakers
    let average_staked := total_staked / stakers.length
    let average_staker_payout := staking_payout_per_block / stakers.length
    let stakers := stakers.map fun s =>
      { s with amount := s.amount + s.amount * average_staker_payout / average_staked }
    ({ deposits := [], stakers := stakers, pending := [] }, ([], [], []))

/-- Staking::on_chain_reorganization (staking.rs lines 212 to 375).  The
    deposits section adds or removes StakerDeposit outputs; when the block
    has both a fee transaction and a golden ticket, rolling forward resets
    an empty staker table, moves the winning staker to pending and resets
    again if the table emptied, while rolling backward refills an empty
    staker table from pending and deposits, removes the fee transaction's
    third output from pending and, once per fee-transaction input, adds
    the first input back to deposits or pending according to its type.
    The triples returned by the inner reset calls are dropped, as the
    source shadows them. -/
def staking_on_chain_reorganization (E : ExtFns) (st : Staking) (block : Block)
    (longest_chain : Bool) : Staking × (List Slip × List Slip × List Slip) :=
  let st := block.transactions.foldl (fun st tx =>
      if tx.ttype = TransactionType.StakerDeposit then
        tx.outputs.foldl (fun st o =>
          if o.slip_type = SlipType.StakerDeposit then
            if longest_chain then st.add_deposit o else st.remove_deposit o
          else st) st
      else st) st
  if block.has_fee_transaction && block.has_golden_ticket then
    let fee_transaction := block.transactions.getD block.fee_transaction_idx Tx.new
    let golden_ticket_transaction := block.transactions.getD block.golden_ticket_idx Tx.new
    let golden_ticket := parse_golden_ticket golden_ticket_transaction.message
    let router_random_number1 := E.hash golden_ticket.random
    let staker_random_number := E.hash router_random_number1
    let _router_random_number2 := E.hash staker_random_number
    if fee_transaction.outputs.length < 3 then (st, ([], [], []))
    else if fee_transaction.inputs.length < 1 then (st, ([], [], []))
    else
      let staker_output := fee_transaction.outputs.getD 2 Slip.new
      let staker_input := fee_transaction.inputs.getD 0 Slip.new
      if longest_chain then
        let st := if st.stakers.length = 0 then (reset_staker_table st 100000000).1 else st
        let st :=
          match find_winning_staker st staker_random_number with
          | some lucky_staker => (st.remove_staker lucky_staker).add_pending lucky_staker
          | none => st
        let st := if st.stakers.length = 0 then (reset_staker_table st 100000000).1 else st
        (st, ([], [], []))
      else
        let st :=
          if st.stakers.length = 0 then
            { deposits := [], stakers := st.stakers ++ st.pending ++ st.deposits
              pending := [] }
          else st
        let st := st.remove_pending staker_output
        let st := (List.range fee_transaction.inputs.length).foldl (fun st _ =>
            let st :=
              if staker_input.slip_type = SlipType.StakerDeposit then
                st.add_deposit staker_input
              else st
            if staker_input.slip_type = SlipType.StakerOutput then
              st.add_pending staker_input
            else st) st
        let st :=
          if st.pending.length = 0 then
            { deposits := [], stakers := st.stakers ++ st.pending ++ st.deposits
              pending := [] }
          else st
        (st, ([], [], []))
  else (st, ([], [], []))

/-- Modelled from the spec: the block header of the earlier block.rs
    revision that src/src/blockchain.rs compiles against (that block.rs is
    not under src/); the fields are the ones add_block reads from
    index.blocks entries. -/
structure OBlockHeader where
  bsh : Bytes
  ts : Nat
  bid : Nat
deriving DecidableEq

/-- Default old-style block header. -/
def OBlockHeader.new : OBlockHeader := { bsh := zero32, ts := 0, bid := 0 }

/-- Modelled from the spec: the earlier Block revision used by
    src/src/blockchain.rs.  is_valid, the body timestamp, id and
    transactions, and the block hash bsh are the fields add_block reads;
    bf carries the cumulative burn-fee work of the block's chain (spec
    section on longest-chain selection), which add_block never reads.
    Transactions are opaque to add_block and modelled as naturals. -/
structure OBlock where
  is_valid : Nat
  ts : Nat
  id : Nat
  txs : List Nat
  bsh : Bytes
  bf : Nat
deriving DecidableEq

/-- Block::header of the earlier revision, projecting the header fields. -/
def OBlock.header (b : OBlock) : OBlockHeader := { bsh := b.bsh, ts := b.ts, bid := b.id }

/-- Blockchain state of src/src/blockchain.rs.  last_bf is an f32 in the
    source and is never touched by add_block; it is carried as a natural.
    The hash maps become association lists. -/
structure OBlockchain where
  index_blocks : List OBlockHeader
  bsh_lc_hmap : List (Bytes × Nat)
  bsh_bid_hmap : List (Bytes × Nat)
  lc_pos_set : Bool
  lc_pos : Nat
  genesis_ts : Nat
  genesis_bid : Nat
  genesis_period : Nat
  last_bsh : Bytes
  last_bid : Nat
  last_ts : Nat
  last_bf : Nat
  lowest_acceptable_ts : Nat
  lowest_acceptable_bsh : Bytes
  lowest_acceptable_bid : Nat
deriving DecidableEq

/-- Blockchain::new of src/src/blockchain.rs, all fields zeroed. -/
def OBlockchain.new : OBlockchain :=
  { index_blocks := [], bsh_lc_hmap := [], bsh_bid_hmap := []
    lc_pos_set := false, lc_pos := 0, genesis_ts := 0, genesis_bid := 0
    genesis_period := 0, last_bsh := zero32, last_bid := 0, last_ts := 0
    last_bf := 0, lowest_acceptable_ts := 0, lowest_acceptable_bsh := zero32
    lowest_acceptable_bid := 0 }

/-- Blockchain::add_block (blockchain.rs lines 90 to 134): reject invalid
    or pre-genesis blocks; insert the header into the index; the
    longest-chain flag is the hardcoded 1, so every inserted block becomes
    the chain tip and its transactions are applied to the UTXO set (spend
    then insert, modelled by the two function parameters since utxoset.rs
    is not under src/).  add_block_success only touches the wallet and
    disk storage, which the spec scopes out of the consensus core. -/
def ob_add_block {U : Type} (spend : U → Nat → Nat → U) (insert : U → Nat → U)
    (bc : OBlockchain) (utxoset : U) (blk : OBlock) : OBlockchain × U :=
  if blk.is_valid = 0 then (bc, utxoset)
  else if blk.ts < bc.genesis_ts || blk.id < bc.genesis_bid then (bc, utxoset)
  else
    let bc :=
      if blk.ts < bc.lowest_acceptable_ts then
        { bc with lowest_acceptable_ts := blk.ts }
      else bc
    let pos := bc.index_blocks.length
    let bc :=
      { bc with
        bsh_bid_hmap := (blk.bsh, blk.id) :: bc.bsh_bid_hmap
        index_blocks := bc.index_blocks ++ [blk.header] }
    let i_am_the_longest_chain : Nat := 1
    if i_am_the_longest_chain = 1 then
      let hdr := bc.index_blocks.getD pos OBlockHeader.new
      let bc :=
        { bc with
          last_bsh := hdr.bsh
          last_ts := hdr.ts
          last_bid := hdr.bid
          lc_pos := pos
          lc_pos_set := true }
      let utxoset := blk.txs.foldl (fun u tx => insert (spend u tx blk.id) tx) utxoset
      (bc, utxoset)
    else (bc, utxoset)

/-- Loop of Mempool::get_block (mempool.rs lines 57 to 63): the source
    tests self.blocks[0] on every iteration, so only a match of the first
    block's hash can be found, and then at index 0.  The fuel argument is
    the number of remaining loop iterations. -/
def get_block_search (first_hash : Bytes) (hash : Bytes) : Nat → Option Nat
  | 0 => none
  | n + 1 => if first_hash = hash then some 0 else get_block_search first_hash hash n

/-- Mempool::get_block (mempool.rs lines 50 to 72): the found block is
    removed from the blocks vector and returned. -/
def mempool_get_block (blocks : List Block) (hash : Bytes) :
    Option Block × List Block :=
  match get_block_search ((blocks.headD Block.new).hash) hash blocks.length with
  | some block_idx => (blocks.get? block_idx, blocks.eraseIdx block_idx)
  | none => (none, blocks)

/-- All-ones 32-byte string, used as a nonzero stored merkle root. -/
def ones32 : Bytes := List.replicate 32 1

/-- Concrete instantiation of the external-function bundle for the closed
    evaluations below: the hash is constantly the zero hash, the
    serializations project the message, metadata generation is the
    identity, the burn-fee functions are zero, the routing lottery returns
    the transaction's cumulative fees as a one-byte key (making the chosen
    transaction observable), and every transaction validates. -/
def E0 : ExtFns :=
  { hash := fun _ => zero32
    serializeForSignature := fun t => t.message
    serializeForNet := fun t => t.message
    deserializeFromNet := fun _ => Tx.new
    getWinningRoutingNode := fun t _ => [t.cumulative_fees]
    generateTxMetadata := fun _ t => t
    burnfeeForNext := fun _ _ _ => 0
    routingWorkNeeded := fun _ _ _ => 0
    txValidate := fun _ _ => true }

/-- Empty chain used by evaluations that need no previous or pruned block. -/
def chain0 : Chain := { blocks := [], blockring := fun _ => zero32, utxoset := [] }

/-- Transaction with a stored signature hash, for the merkle evaluations. -/
def txA : Tx := { Tx.new with hash_for_signature := some zero32 }

/-- Block whose stored merkle root (all ones) differs from the recomputed
    root (the zero hash under the constant hash function). -/
def blkA : Block := { Block.new with id := 1, merkle_root := ones32, transactions := [txA] }

/-- Block whose stored and recomputed merkle roots are both the zero hash. -/
def blkB : Block := { Block.new with id := 1, merkle_root := zero32, transactions := [txA] }

/-- First normal transaction of the winner-selection evaluation,
    cumulative fees 5. -/
def t0 : Tx := { Tx.new with total_fees := 5, cumulative_fees := 5 }

/-- Second normal transaction of the winner-selection evaluation,
    cumulative fees 10. -/
def t1 : Tx := { Tx.new with timestamp := 1, total_fees := 5, cumulative_fees := 10 }

/-- Golden-ticket transaction whose 32-byte random decodes to 7 big-endian. -/
def gtx : Tx :=
  { Tx.new with
    ttype := TransactionType.GoldenTicket
    cumulative_fees := 10
    message := List.replicate 31 0 ++ [7] ++ List.replicate 33 2 ++ List.replicate 32 3 }

/-- Block for the winner-selection evaluation: two fee-paying transactions
    and a golden ticket, total fees 10, winning nolan 7. -/
def blk2 : Block :=
  { Block.new with id := 1, transactions := [t0, t1, gtx], has_golden_ticket := true }

/-- Hash under which the previous block of the difficulty evaluation is indexed. -/
def hashP : Bytes := List.replicate 32 9

/-- Previous block of the difficulty evaluation, difficulty 5, no golden ticket. -/
def prevW3 : Block := { Block.new with difficulty := 5 }

/-- Current block of the difficulty evaluation: neither block has a golden
    ticket, so the expected difficulty is 4, and the stored difficulty 3
    differs from it. -/
def selfW3 : Block := { Block.new with id := 1, previous_block_hash := hashP, difficulty := 3 }

/-- Chain indexing the previous block of the difficulty evaluation. -/
def chainW3 : Chain := { blocks := [(hashP, prevW3)], blockring := fun _ => zero32, utxoset := [] }

/-- Spendable output above the rebroadcast fee, for the ATR evaluations. -/
def oBig : Slip := { Slip.new with publickey := [4], uuid := [41], amount := 300000000 }

/-- Spendable dust output, for the ATR evaluations. -/
def oDust : Slip := { Slip.new with publickey := [4], uuid := [42], amount := 10 }

/-- Output absent from the UTXO set, for the ATR evaluations. -/
def oGone : Slip := { Slip.new with publickey := [4], uuid := [43], amount := 999 }

/-- Pruned-block transaction of the generic ATR evaluation. -/
def txC4 : Tx := { Tx.new with outputs := [oBig, oDust, oGone], message := [77] }

/-- Pruned block of the generic ATR evaluation. -/
def prunedC4 : Block := { Block.new with id := 1, transactions := [txC4] }

/-- Chain of the generic ATR evaluation: the pruned block is on the
    longest chain two behind, and its first two outputs are spendable. -/
def chainC4 : Chain :=
  { blocks := [(hashP, prunedC4)]
    blockring := fun _ => hashP
    utxoset := [(oBig.utxoset_key, 1), (oDust.utxoset_key, 1)] }

/-- Current block of the generic ATR evaluation, id 3. -/
def selfC4 : Block := { Block.new with id := 3 }

/-- Spendable output of exactly the rebroadcast fee (200 000 000 nolan). -/
def oAtrFee : Slip := { Slip.new with publickey := [5], uuid := [51], amount := 200000000 }

/-- Spendable output of 199 999 999 nolan. -/
def oBelow : Slip := { Slip.new with publickey := [5], uuid := [52], amount := 199999999 }

/-- Pruned-block transaction of the ATR dust evaluation. -/
def txC5 : Tx := { Tx.new with outputs := [oAtrFee, oBelow], message := [78] }

/-- Pruned block of the ATR dust evaluation: exactly two still-unspent
    outputs of 200 000 000 and 199 999 999 nolan. -/
def prunedC5 : Block := { Block.new with id := 1, transactions := [txC5] }

/-- Chain of the ATR dust evaluation. -/
def chainC5 : Chain :=
  { blocks := [(hashP, prunedC5)]
    blockring := fun _ => hashP
    utxoset := [(oAtrFee.utxoset_key, 1), (oBelow.utxoset_key, 1)] }

/-- Current block of the ATR dust evaluation, id 3. -/
def selfC5 : Block := { Block.new with id := 3 }

/-- Merged pool of a staking state: stakers, then pending, then deposits,
    the order in which reset_staker_table combines them. -/
def merged (st : Staking) : List Slip := st.stakers ++ st.pending ++ st.deposits

/-- Per-staker payout of the table reset as both the spec and the source
    state it: the amount grows by amount times the average payout (the
    per-block treasury share divided by the pool size) divided by the
    average stake, all in integer division, and the slip is re-typed as a
    staker output. -/
def reset_payout_slip (T : Nat) (pool : List Slip) (s : Slip) : Slip :=
  { s with
    slip_type := SlipType.StakerOutput
    amount := s.amount + s.amount * ((T / GENESIS_PERIOD) / pool.length) /
      (sumAmounts pool / pool.length) }

/-- Staking deposit of 3 nolan (rounding counterexample). -/
def dA : Slip := { Slip.new with uuid := [61], amount := 3, slip_type := SlipType.StakerDeposit }

/-- Staking deposit of 3 nolan with a distinct key (rounding counterexample). -/
def dB : Slip := { Slip.new with uuid := [62], amount := 3, slip_type := SlipType.StakerDeposit }

/-- Staking deposit of 4 nolan (rounding counterexample). -/
def dC : Slip := { Slip.new with uuid := [63], amount := 4, slip_type := SlipType.StakerDeposit }

/-- Staking state of the rounding counterexample: three small deposits. -/
def stC6 : Staking := { deposits := [dA, dB, dC], stakers := [], pending := [] }

/-- Staking deposit of 200 000 000 nolan (payout-formula evaluation). -/
def e1 : Slip := { Slip.new with uuid := [71], amount := 200000000, slip_type := SlipType.StakerDeposit }

/-- Staking deposit of 300 000 000 nolan (payout-formula evaluation). -/
def e2 : Slip := { Slip.new with uuid := [72], amount := 300000000, slip_type := SlipType.StakerDeposit }

/-- Staking deposit of 400 000 000 nolan (payout-formula evaluation). -/
def e3 : Slip := { Slip.new with uuid := [73], amount := 400000000, slip_type := SlipType.StakerDeposit }

/-- Staking deposit of 500 000 000 nolan (payout-formula evaluation). -/
def e4 : Slip := { Slip.new with uuid := [74], amount := 500000000, slip_type := SlipType.StakerDeposit }

/-- Staking deposit of 600 000 000 nolan (payout-formula evaluation). -/
def e5 : Slip := { Slip.new with uuid := [75], amount := 600000000, slip_type := SlipType.StakerDeposit }

/-- Staking state of the payout-formula evaluation, the five deposits of
    the staking_table_test in staking.rs. -/
def stC7 : Staking := { deposits := [e1, e2, e3, e4, e5], stakers := [], pending := [] }

/-- Staker slip paid out in the reorganization evaluation. -/
def s1 : Slip := { Slip.new with publickey := [1], uuid := [11], amount := 50, slip_type := SlipType.StakerOutput }

/-- Second staker slip of the reorganization evaluation. -/
def s2 : Slip := { Slip.new with publickey := [2], uuid := [12], amount := 60, slip_type := SlipType.StakerOutput }

/-- Staking state of the reorganization evaluation: two active stakers. -/
def st8 : Staking := { deposits := [], stakers := [s1, s2], pending := [] }

/-- Fee transaction of the reorganization evaluation: its first input and
    its third output are the paid staker slip. -/
def feeTx8 : Tx :=
  { Tx.new with
    ttype := TransactionType.Fee
    inputs := [s1]
    outputs := [Slip.new, Slip.new, s1] }

/-- Golden-ticket transaction of the reorganization evaluation. -/
def gtTx8 : Tx :=
  { Tx.new with ttype := TransactionType.GoldenTicket, message := List.replicate 97 0 }

/-- Block of the reorganization evaluation, carrying both a fee
    transaction and a golden ticket. -/
def blk8 : Block :=
  { Block.new with
    transactions := [feeTx8, gtTx8]
    has_fee_transaction := true
    has_golden_ticket := true
    fee_transaction_idx := 0
    golden_ticket_idx := 1 }

/-- Chain-tip block of the longest-chain evaluation, burn-fee work 100. -/
def blkA9 : OBlock := { is_valid := 1, ts := 5, id := 1, txs := [], bsh := [10], bf := 100 }

/-- Competing block of the longest-chain evaluation, burn-fee work 5. -/
def blkB9 : OBlock := { is_valid := 1, ts := 6, id := 1, txs := [], bsh := [20], bf := 5 }

/-- Blockchain state of the longest-chain evaluation, with blkA9 as tip. -/
def bc9 : OBlockchain :=
  { OBlockchain.new with
    index_blocks := [blkA9.header]
    bsh_bid_hmap := [([10], 1)]
    lc_pos_set := true
    lc_pos := 0
    last_bsh := [10]
    last_bid := 1
    last_ts := 5 }

/-- Trivial spend function on a unit UTXO state. -/
def spend0 : Unit → Nat → Nat → Unit := fun _ _ _ => ()

/-- Trivial insert function on a unit UTXO state. -/
def insert0 : Unit → Nat → Unit := fun _ _ => ()

/-- Mempool block of the get-block evaluation, hash 21. -/
def bX : Block := { Block.new with hash := [21] }

/-- Mempool block of the get-block evaluation, hash 22. -/
def bY : Block := { Block.new with hash := [22] }

/-- Walk of block.rs lines 698 to 706 as a closed form: the winner is the
    last element of the maximal prefix whose cumulative fees do not exceed
    the winning nolan, defaulting to the starting winner. -/
theorem winning_tx_walk_getLastD (w : Nat) :
    ∀ (l : List Tx) (win : Tx),
      winning_tx_walk w win l =
        (l.takeWhile fun t => t.cumulative_fees ≤ w).getLastD win := by
  intro l
  induction l with
  | nil => intro win; rfl
  | cons t rest ih =>
    intro win
    by_cases h : w < t.cumulative_fees
    · have hp : (decide (t.cumulative_fees ≤ w)) = false := by
        simp only [decide_eq_false_iff_not, not_le]; exact h
      simp [winning_tx_walk, List.takeWhile_cons, h, hp]
    · have hp : (decide (t.cumulative_fees ≤ w)) = true := by
        simp only [decide_eq_true_eq]; omega
      have h1 : winning_tx_walk w win (t :: rest) = winning_tx_walk w t rest := by
        simp [winning_tx_walk, h]
      rw [h1, ih t, List.takeWhile_cons, hp, if_pos rfl, List.getLastD_cons]

/-- Search helper of Mempool::get_block never succeeds when the first
    block's hash differs from the requested one. -/
theorem get_block_search_ne (first_hash hash : Bytes) (h : first_hash ≠ hash) :
    ∀ n, get_block_search first_hash hash n = none := by
  intro n
  induction n with
  | zero => rfl
  | succ n ih => simp [get_block_search, h, ih]

/-- Element appended at the end of a list is read back at the old length. -/
theorem getD_concat_length {α : Type} (l : List α) (a d : α) :
    (l ++ [a]).getD l.length d = a := by
  induction l with
  | nil => rfl
  | cons x xs ih =>
    simp only [List.cons_append, List.length_cons, List.getD_cons_succ]
    exact ih

/-- Claim C1: the merkle-root check of Block::validate is an if-and-only-if
    against the recomputed root, failing on mismatch and on a zero root.
    This is refuted by the code: the source combines the two conditions
    with a logical and, so blkA (stored root all ones, recomputed root
    distinct) and blkB (stored and recomputed roots both zero) both pass
    the whole of validate. -/
theorem c1_merkle_check_code_bug :
    block_validate E0 chain0 [] blkA = true ∧
    blkA.merkle_root ≠ generate_merkle_root E0 blkA.transactions ∧
    block_validate E0 chain0 [] blkB = true ∧
    blkB.merkle_root = zero32 ∧
    generate_merkle_root E0 blkB.transactions = zero32 := by
  refine ⟨by decide, by decide, by decide, by decide, by decide⟩

/-- Claim C2 counterexample: with cumulative fees 5 and 10, winning nolan
    7 and no rebroadcast fees, the source walk returns the transaction
    with cumulative fees 5, while the claimed procedure (first transaction
    whose cumulative fees exceed the winning nolan minus the rebroadcast
    fees) returns the one with cumulative fees 10; the fee transaction
    produced by generate_data_to_validate observably pays the router of
    the former. -/
theorem c2_winning_tx_counterexample :
    winning_normal_tx blk2.transactions 7 = t0 ∧
    spec_winning_normal_tx blk2.transactions 7 0 = t1 ∧
    t0 ≠ t1 ∧
    ((generate_data_to_validate E0 chain0 blk2).fee_transaction.map
        (fun ft => (ft.outputs.getD 1 Slip.new).publickey)) = some [5] ∧
    t0.cumulative_fees = 5 ∧ t1.cumulative_fees = 10 := by
  refine ⟨by decide, by decide, by decide, by decide, by decide, by decide⟩

/-- Claim C2 (amended): the walk of generate_data_to_validate selects the
    last transaction of the maximal prefix whose cumulative fees do not
    exceed the winning nolan itself (the subtraction of the rebroadcast
    fees is computed by the source but unused), falling back to
    transactions[0] when already the first transaction exceeds it. -/
theorem c2_winning_tx_amended (transactions : List Tx) (winning_nolan_in_fees : Nat) :
    winning_normal_tx transactions winning_nolan_in_fees =
      (transactions.takeWhile fun t => t.cumulative_fees ≤ winning_nolan_in_fees).getLastD
        (transactions.headD Tx.new) :=
  winning_tx_walk_getLastD winning_nolan_in_fees transactions (transactions.headD Tx.new)

/-- Claim C5 counterexample: with still-unspent outputs of exactly
    200 000 000 and 199 999 999 nolan two blocks back, the ATR computation
    emits no rebroadcast at all (the 200 000 000 output is dust under the
    source's strict comparison), so the claimed rebroadcast vector of
    length one carrying a zero-amount output does not exist; the fee total
    is as claimed. -/
theorem c5_atr_dust_counterexample :
    (generate_data_to_validate E0 chainC5 selfC5).rebroadcasts.length = 0 ∧
    (generate_data_to_validate E0 chainC5 selfC5).total_rebroadcast_fees_nolan =
      200000000 + 199999999 ∧
    ¬ (generate_data_to_validate E0 chainC5 selfC5).rebroadcasts.length = 1 := by
  refine ⟨by decide, by decide, by decide⟩

/-- Claim C6 counterexample: resetting a pool of deposits 3, 3 and 4
    nolan with treasury 1 000 000 000 pays out 111 111 110 nolan in total,
    which misses the claimed treasury share of 100 000 000 nolan by far
    more than 1 nolan of rounding. -/
theorem c6_reset_sum_counterexample :
    sumAmounts (reset_staker_table stC6 1000000000).1.stakers = 111111120 ∧
    sumAmounts (merged stC6) = 10 ∧
    ¬ (111111120 - 10 ≤ 1000000000 / GENESIS_PERIOD + 1 ∧
       1000000000 / GENESIS_PERIOD ≤ (111111120 - 10) + 1) := by
  refine ⟨by decide, by decide, by decide⟩

/-- Claim C8: rolling a block with fee transaction and golden ticket
    forward and then back is claimed to restore the staking state.  The
    code refutes this: from stakers s1 and s2, the forward step moves s1
    into pending, and the backward step re-adds it to pending instead of
    the stakers, leaving the state unchanged rather than restored. -/
theorem c8_rollback_not_inverse :
    (staking_on_chain_reorganization E0 st8 blk8 true).1 =
      { deposits := [], stakers := [s2], pending := [s1] } ∧
    (staking_on_chain_reorganization E0
        (staking_on_chain_reorganization E0 st8 blk8 true).1 blk8 false).1 =
      { deposits := [], stakers := [s2], pending := [s1] } ∧
    st8 = { deposits := [], stakers := [s1, s2], pending := [] } ∧
    (staking_on_chain_reorganization E0
        (staking_on_chain_reorganization E0 st8 blk8 true).1 blk8 false).1 ≠ st8 := by
  refine ⟨by decide, by decide, by decide, by decide⟩

/-- Claim C9 counterexample: with blkA9 (burn-fee work 100) as tip,
    add_block makes the lesser-work blkB9 (work 5) the new tip, refuting
    the claim that such a block leaves the tip unchanged. -/
theorem c9_lesser_work_counterexample :
    blkB9.bf < blkA9.bf ∧
    bc9.last_bsh = blkA9.bsh ∧
    (ob_add_block spend0 insert0 bc9 () blkB9).1.last_bsh = blkB9.bsh ∧
    blkB9.bsh ≠ blkA9.bsh := by
  refine ⟨by decide, by decide, by decide, by decide⟩

/-- Claim C9 (amended): Blockchain::add_block performs no burn-fee-work
    comparison at all; every block passing the validity and genesis checks
    unconditionally becomes the new chain tip, since the longest-chain
    flag is hardcoded to one. -/
theorem c9_add_block_unconditional_tip {U : Type} (spend : U → Nat → Nat → U)
    (insert : U → Nat → U) (bc : OBlockchain) (utxoset : U) (blk : OBlock)
    (hv : blk.is_valid ≠ 0) (hts : ¬ blk.ts < bc.genesis_ts)
    (hid : ¬ blk.id < bc.genesis_bid) :
    (ob_add_block spend insert bc utxoset blk).1.last_bsh = blk.bsh ∧
    (ob_add_block spend insert bc utxoset blk).1.last_bid = blk.id ∧
    (ob_add_block spend insert bc utxoset blk).1.lc_pos_set = true := by
  simp only [ob_add_block]
  rw [if_neg hv]
  rw [if_neg (by simp [hts, hid])]
  split
  · simp [getD_concat_length, OBlock.header]
  · exact absurd trivial (by assumption)

/-- Witness for the amended C9 theorem at a concrete block and the fresh
    blockchain state. -/
theorem c9_add_block_witness :
    blkA9.is_valid ≠ 0 ∧ ¬ blkA9.ts < OBlockchain.new.genesis_ts ∧
    ¬ blkA9.id < OBlockchain.new.genesis_bid ∧
    ((ob_add_block spend0 insert0 OBlockchain.new () blkA9).1.last_bsh = blkA9.bsh ∧
     (ob_add_block spend0 insert0 OBlockchain.new () blkA9).1.last_bid = blkA9.id ∧
     (ob_add_block spend0 insert0 OBlockchain.new () blkA9).1.lc_pos_set = true) :=
  ⟨by decide, by decide, by decide,
    c9_add_block_unconditional_tip spend0 insert0 OBlockchain.new () blkA9
      (by decide) (by decide) (by decide)⟩

/-- Claim C10: Mempool::get_block succeeds exactly on the first block of
    the vector — a matching first block is removed and returned, and any
    request whose hash does not match the first block (in particular one
    matching only a later block) returns none and leaves the vector
    unchanged. -/
theorem c10_mempool_get_block_first_only :
    (∀ (blocks : List Block) (hash : Bytes) (b : Block),
        (mempool_get_block blocks hash).1 = some b →
        blocks.head? = some b ∧ b.hash = hash ∧
          (mempool_get_block blocks hash).2 = blocks.tail) ∧
    (∀ (blocks : List Block) (hash : Bytes),
        (∀ b0, blocks.head? = some b0 → b0.hash ≠ hash) →
        mempool_get_block blocks hash = (none, blocks)) := by
  constructor
  · intro blocks hash b hb
    cases blocks with
    | nil => simp [mempool_get_block, get_block_search] at hb
    | cons x rest =>
      by_cases h : x.hash = hash
      · simp only [mempool_get_block, List.headD_cons, List.length_cons,
          get_block_search, h, if_pos] at hb ⊢
        simp only [List.get?_eq_getElem?, List.getElem?_cons_zero, Option.some.injEq] at hb
        subst hb
        refine ⟨rfl, h, ?_⟩
        simp [List.eraseIdx]
      · rw [mempool_get_block] at hb
        simp only [List.headD_cons] at hb
        rw [get_block_search_ne x.hash hash h] at hb
        simp at hb
  · intro blocks hash hne
    cases blocks with
    | nil => rfl
    | cons x rest =>
      have h : x.hash ≠ hash := hne x rfl
      rw [mempool_get_block]
      simp only [List.headD_cons]
      rw [get_block_search_ne x.hash hash h]

/-- Witness for C10 at a concrete one-block mempool whose first block
    matches the requested hash. -/
theorem c10_mempool_get_block_witness :
    (mempool_get_block [bY] [22]).1 = some bY ∧
    ([bY].head? = some bY ∧ bY.hash = [22] ∧
      (mempool_get_block [bY] [22]).2 = [bY].tail) :=
  ⟨by decide, c10_mempool_get_block_first_only.1 [bY] [22] bY (by decide)⟩

/-- Payments section leaves the expected difficulty untouched. -/
theorem payments_expected_difficulty (E : ExtFns) (self : Block) (a : AtrResult)
    (c : CountResult) (cv : DataToValidate) :
    (payments E self a c cv).expected_difficulty = cv.expected_difficulty := by
  unfold payments
  cases hc : c.gt_idx with
  | none => rfl
  | some gt_idx => split <;> first | rfl | (split <;> rfl)

/-- Assembled ATR consensus values carry the zeroed expected difficulty. -/
theorem assemble_cv_expected_difficulty (a : AtrResult) :
    (assemble_cv a).expected_difficulty = 0 := rfl

/-- Expected difficulty computed by generate_data_to_validate, when the
    previous block is present, equals the difficulty rule. -/
theorem gdtv_expected_difficulty (E : ExtFns) (chain : Chain) (self previous_block : Block)
    (hp : lookupBlock chain self.previous_block_hash = some previous_block) :
    (generate_data_to_validate E chain self).expected_difficulty =
      expected_difficulty_rule previous_block self := by
  unfold generate_data_to_validate apply_difficulty expected_difficulty_rule
  rw [hp]
  by_cases h1 : previous_block.has_golden_ticket <;>
    by_cases h2 : self.has_golden_ticket <;>
      by_cases h3 : 0 < previous_block.difficulty <;>
        simp [h1, h2, h3, payments_expected_difficulty, assemble_cv_expected_difficulty]

/-- Claim C3: when the previous block is in the index, the expected
    difficulty of generate_data_to_validate is the previous difficulty
    plus one when both blocks carry a golden ticket, minus one floored at
    zero when neither does, and unchanged otherwise; and Block::validate
    returns false whenever the block's stored difficulty differs from
    this expected value. -/
theorem c3_expected_difficulty_validated (E : ExtFns) (chain : Chain)
    (utxoset : Utxoset) (self previous_block : Block)
    (hp : lookupBlock chain self.previous_block_hash = some previous_block)
    (hd : self.difficulty ≠ expected_difficulty_rule previous_block self) :
    (generate_data_to_validate E chain self).expected_difficulty =
      expected_difficulty_rule previous_block self ∧
    block_validate E chain utxoset self = false := by
  have h1 := gdtv_expected_difficulty E chain self previous_block hp
  refine ⟨h1, ?_⟩
  have h2 : ((generate_data_to_validate E chain self).expected_difficulty ==
      self.difficulty) = false := by
    rw [h1]
    exact beq_eq_false_iff_ne.mpr fun h => hd h.symm
  simp only [block_validate]
  rw [h2]
  simp

/-- Witness for C3 at a concrete chain: the previous block has difficulty
    5, neither block has a golden ticket, and the stored difficulty 3
    differs from the expected 4, so validation fails. -/
theorem c3_witness :
    lookupBlock chainW3 selfW3.previous_block_hash = some prevW3 ∧
    selfW3.difficulty ≠ expected_difficulty_rule prevW3 selfW3 ∧
    ((generate_data_to_validate E0 chainW3 selfW3).expected_difficulty =
        expected_difficulty_rule prevW3 selfW3 ∧
      block_validate E0 chainW3 [] selfW3 = false) :=
  ⟨by decide, by decide,
    c3_expected_difficulty_validated E0 chainW3 [] selfW3 prevW3 (by decide) (by decide)⟩

/-- Spendable outputs of a pruned transaction strictly above the
    rebroadcast fee — exactly the outputs the ATR scan rebroadcasts. -/
def big_outputs (u : Utxoset) (tx : Tx) : List Slip :=
  tx.outputs.filter fun o => Slip.validate u o && decide (200000000 < o.amount)

/-- Spendable outputs of a pruned transaction at or below the rebroadcast
    fee, collected by the ATR scan as dust. -/
def dust_outputs (u : Utxoset) (tx : Tx) : List Slip :=
  tx.outputs.filter fun o => Slip.validate u o && decide (o.amount ≤ 200000000)

/-- Qualifying pruned transaction and output pairs over a whole block, in
    block order then output order. -/
def atr_pairs (u : Utxoset) : List Tx → List (Tx × Slip)
  | [] => []
  | tx :: rest => ((big_outputs u tx).map fun o => (tx, o)) ++ atr_pairs u rest

/-- Dust amounts over a whole block, in order. -/
def dust_amounts (u : Utxoset) : List Tx → List Nat
  | [] => []
  | tx :: rest => ((dust_outputs u tx).map Slip.amount) ++ dust_amounts u rest

/-- Amounts of all spendable outputs of a whole block, in order. -/
def spendable_amounts (u : Utxoset) : List Tx → List Nat
  | [] => []
  | tx :: rest =>
    ((tx.outputs.filter fun o => Slip.validate u o).map Slip.amount) ++
      spendable_amounts u rest

/-- Inner ATR loop, characterized field by field: each spendable output
    above the fee contributes one rebroadcast, its amount to the nolan
    total and the flat fee to the fee total, while each spendable output
    at or below the fee contributes its amount to the fee total. -/
theorem atr_outputs_fields (E : ExtFns) (u : Utxoset) (tx : Tx) :
    ∀ (outs : List Slip) (acc : AtrResult),
      (atr_outputs E u tx outs acc).slips =
        acc.slips +
          (outs.filter fun o => Slip.validate u o && decide (200000000 < o.amount)).length ∧
      (atr_outputs E u tx outs acc).nolan =
        acc.nolan +
          ((outs.filter fun o => Slip.validate u o && decide (200000000 < o.amount)).map
            Slip.amount).sum ∧
      (atr_outputs E u tx outs acc).fees =
        acc.fees +
          200000000 *
            (outs.filter fun o => Slip.validate u o && decide (200000000 < o.amount)).length +
          ((outs.filter fun o => Slip.validate u o && decide (o.amount ≤ 200000000)).map
            Slip.amount).sum ∧
      (atr_outputs E u tx outs acc).rebroadcasts =
        acc.rebroadcasts ++
          (outs.filter fun o => Slip.validate u o && decide (200000000 < o.amount)).map
            (fun o => generate_rebroadcast_transaction E tx o 200000000) := by
  intro outs
  induction outs with
  | nil => intro acc; refine ⟨by simp [atr_outputs], by simp [atr_outputs],
      by simp [atr_outputs], by simp [atr_outputs]⟩
  | cons o rest ih =>
    intro acc
    have hrec : atr_outputs E u tx (o :: rest) acc =
        atr_outputs E u tx rest (atr_step E u tx acc o) := rfl
    obtain ⟨ihs, ihn, ihf, ihr⟩ := ih (atr_step E u tx acc o)
    by_cases hv : Slip.validate u o
    · by_cases ha : 200000000 < o.amount
      · have hpb : (Slip.validate u o && decide (200000000 < o.amount)) = true := by
          simp [hv, ha]
        have hpd : (Slip.validate u o && decide (o.amount ≤ 200000000)) = false := by
          simp [hv]; omega
        have hstep : atr_step E u tx acc o =
            { rebroadcasts := acc.rebroadcasts ++
                [generate_rebroadcast_transaction E tx o 200000000]
              slips := acc.slips + 1
              nolan := acc.nolan + o.amount
              fees := acc.fees + 200000000
              rhash := E.hash (acc.rhash ++ E.serializeForSignature
                (generate_rebroadcast_transaction E tx o 200000000)) } := by
          simp [atr_step, hv, ha]
        refine ⟨?_, ?_, ?_, ?_⟩
        · rw [hrec, ihs, hstep]
          simp [List.filter_cons, hpb]
          omega
        · rw [hrec, ihn, hstep]
          simp [List.filter_cons, hpb]
          omega
        · rw [hrec, ihf, hstep]
          simp [List.filter_cons, hpb, hpd]
          omega
        · rw [hrec, ihr, hstep]
          simp [List.filter_cons, hpb]
      · have hpb : (Slip.validate u o && decide (200000000 < o.amount)) = false := by
          simp [hv]; omega
        have hpd : (Slip.validate u o && decide (o.amount ≤ 200000000)) = true := by
          simp [hv]; omega
        have hstep : atr_step E u tx acc o = { acc with fees := acc.fees + o.amount } := by
          simp [atr_step, hv, ha]
        refine ⟨?_, ?_, ?_, ?_⟩
        · rw [hrec, ihs, hstep]
          simp [List.filter_cons, hpb]
        · rw [hrec, ihn, hstep]
          simp [List.filter_cons, hpb]
        · rw [hrec, ihf, hstep]
          simp [List.filter_cons, hpb, hpd]
          omega
        · rw [hrec, ihr, hstep]
          simp [List.filter_cons, hpb]
    · have hpb : (Slip.validate u o && decide (200000000 < o.amount)) = false := by
        simp [hv]
      have hpd : (Slip.validate u o && decide (o.amount ≤ 200000000)) = false := by
        simp [hv]
      have hstep : atr_step E u tx acc o = acc := by
        simp [atr_step, hv]
      refine ⟨?_, ?_, ?_, ?_⟩
      · rw [hrec, ihs, hstep]
        simp [List.filter_cons, hpb]
      · rw [hrec, ihn, hstep]
        simp [List.filter_cons, hpb]
      · rw [hrec, ihf, hstep]
        simp [List.filter_cons, hpb, hpd]
      · rw [hrec, ihr, hstep]
        simp [List.filter_cons, hpb]

/-- Outer ATR loop, characterized field by field against the pair and
    dust lists of the whole block. -/
theorem atr_scan_fields (E : ExtFns) (u : Utxoset) :
    ∀ (txs : List Tx) (acc : AtrResult),
      (atr_scan E u txs acc).slips = acc.slips + (atr_pairs u txs).length ∧
      (atr_scan E u txs acc).nolan =
        acc.nolan + ((atr_pairs u txs).map fun p => p.2.amount).sum ∧
      (atr_scan E u txs acc).fees =
        acc.fees + 200000000 * (atr_pairs u txs).length + (dust_amounts u txs).sum ∧
      (atr_scan E u txs acc).rebroadcasts =
        acc.rebroadcasts ++ ((atr_pairs u txs).map fun p =>
          generate_rebroadcast_transaction E p.1 p.2 200000000) := by
  intro txs
  induction txs with
  | nil => intro acc; refine ⟨by simp [atr_scan, atr_pairs],
      by simp [atr_scan, atr_pairs], by simp [atr_scan, atr_pairs, dust_amounts],
      by simp [atr_scan, atr_pairs]⟩
  | cons tx rest ih =>
    intro acc
    have hrec : atr_scan E u (tx :: rest) acc =
        atr_scan E u rest (atr_outputs E u tx tx.outputs acc) := rfl
    obtain ⟨ihs, ihn, ihf, ihr⟩ := ih (atr_outputs E u tx tx.outputs acc)
    obtain ⟨hos, hon, hof, hor⟩ := atr_outputs_fields E u tx tx.outputs acc
    refine ⟨?_, ?_, ?_, ?_⟩
    · rw [hrec, ihs, hos]
      simp [atr_pairs, big_outputs]
      omega
    · rw [hrec, ihn, hon]
      have hcomp : ((fun (p : Tx × Slip) => p.2.amount) ∘ fun o => (tx, o)) = Slip.amount :=
        rfl
      simp [atr_pairs, big_outputs, List.map_map, hcomp]
      omega
    · rw [hrec, ihf, hof]
      simp [atr_pairs, dust_amounts, big_outputs, dust_outputs]
      omega
    · rw [hrec, ihr, hor]
      have hcomp : ((fun (p : Tx × Slip) =>
          generate_rebroadcast_transaction E p.1 p.2 200000000) ∘ fun o => (tx, o)) =
            fun o => generate_rebroadcast_transaction E tx o 200000000 := rfl
      simp [atr_pairs, big_outputs, List.map_map, hcomp, List.append_assoc]

/-- Payments section leaves the rebroadcast vector untouched. -/
theorem payments_rebroadcasts (E : ExtFns) (self : Block) (a : AtrResult)
    (c : CountResult) (cv : DataToValidate) :
    (payments E self a c cv).rebroadcasts = cv.rebroadcasts := by
  unfold payments
  cases hc : c.gt_idx with
  | none => rfl
  | some gt_idx => split <;> first | rfl | (split <;> rfl)

/-- Payments section leaves the rebroadcast slip total untouched. -/
theorem payments_slips (E : ExtFns) (self : Block) (a : AtrResult)
    (c : CountResult) (cv : DataToValidate) :
    (payments E self a c cv).total_rebroadcast_slips = cv.total_rebroadcast_slips := by
  unfold payments
  cases hc : c.gt_idx with
  | none => rfl
  | some gt_idx => split <;> first | rfl | (split <;> rfl)

/-- Payments section leaves the rebroadcast nolan total untouched. -/
theorem payments_nolan (E : ExtFns) (self : Block) (a : AtrResult)
    (c : CountResult) (cv : DataToValidate) :
    (payments E self a c cv).total_rebroadcast_nolan = cv.total_rebroadcast_nolan := by
  unfold payments
  cases hc : c.gt_idx with
  | none => rfl
  | some gt_idx => split <;> first | rfl | (split <;> rfl)

/-- Payments section leaves the rebroadcast fee total untouched. -/
theorem payments_fees (E : ExtFns) (self : Block) (a : AtrResult)
    (c : CountResult) (cv : DataToValidate) :
    (payments E self a c cv).total_rebroadcast_fees_nolan =
      cv.total_rebroadcast_fees_nolan := by
  unfold payments
  cases hc : c.gt_idx with
  | none => rfl
  | some gt_idx => split <;> first | rfl | (split <;> rfl)

/-- Difficulty section leaves the rebroadcast vector untouched. -/
theorem apply_difficulty_rebroadcasts (chain : Chain) (self : Block)
    (cv : DataToValidate) :
    (apply_difficulty chain self cv).rebroadcasts = cv.rebroadcasts := by
  simp only [apply_difficulty]
  split <;> first | rfl | (split <;> first | rfl | (split <;> rfl))

/-- Difficulty section leaves the rebroadcast slip total untouched. -/
theorem apply_difficulty_slips (chain : Chain) (self : Block) (cv : DataToValidate) :
    (apply_difficulty chain self cv).total_rebroadcast_slips =
      cv.total_rebroadcast_slips := by
  simp only [apply_difficulty]
  split <;> first | rfl | (split <;> first | rfl | (split <;> rfl))

/-- Difficulty section leaves the rebroadcast nolan total untouched. -/
theorem apply_difficulty_nolan (chain : Chain) (self : Block) (cv : DataToValidate) :
    (apply_difficulty chain self cv).total_rebroadcast_nolan =
      cv.total_rebroadcast_nolan := by
  simp only [apply_difficulty]
  split <;> first | rfl | (split <;> first | rfl | (split <;> rfl))

/-- Difficulty section leaves the rebroadcast fee total untouched. -/
theorem apply_difficulty_fees (chain : Chain) (self : Block) (cv : DataToValidate) :
    (apply_difficulty chain self cv).total_rebroadcast_fees_nolan =
      cv.total_rebroadcast_fees_nolan := by
  simp only [apply_difficulty]
  split <;> first | rfl | (split <;> first | rfl | (split <;> rfl))

/-- ATR fields of the consensus values over the pruned block when it is on
    the longest chain two behind the current block. -/
theorem gdtv_atr_fields (E : ExtFns) (chain : Chain) (self pruned_block : Block)
    (h2 : 2 < self.id)
    (hp : lookupBlock chain (chain.blockring (self.id - 2)) = some pruned_block) :
    (generate_data_to_validate E chain self).rebroadcasts =
      ((atr_pairs chain.utxoset pruned_block.transactions).map fun p =>
        generate_rebroadcast_transaction E p.1 p.2 200000000) ∧
    (generate_data_to_validate E chain self).total_rebroadcast_slips =
      (atr_pairs chain.utxoset pruned_block.transactions).length ∧
    (generate_data_to_validate E chain self).total_rebroadcast_nolan =
      ((atr_pairs chain.utxoset pruned_block.transactions).map fun p => p.2.amount).sum ∧
    (generate_data_to_validate E chain self).total_rebroadcast_fees_nolan =
      200000000 * (atr_pairs chain.utxoset pruned_block.transactions).length +
        (dust_amounts chain.utxoset pruned_block.transactions).sum := by
  obtain ⟨hs, hn, hf, hr⟩ :=
    atr_scan_fields E chain.utxoset pruned_block.transactions atr_init
  unfold generate_data_to_validate
  simp only [h2, if_true, hp, payments_rebroadcasts, payments_slips, payments_nolan,
    payments_fees, apply_difficulty_rebroadcasts, apply_difficulty_slips,
    apply_difficulty_nolan, apply_difficulty_fees]
  refine ⟨?_, ?_, ?_, ?_⟩
  · rw [show (assemble_cv (atr_scan E chain.utxoset pruned_block.transactions
        atr_init)).rebroadcasts =
      (atr_scan E chain.utxoset pruned_block.transactions atr_init).rebroadcasts from rfl]
    rw [hr]
    rfl
  · rw [show (assemble_cv (atr_scan E chain.utxoset pruned_block.transactions
        atr_init)).total_rebroadcast_slips =
      (atr_scan E chain.utxoset pruned_block.transactions atr_init).slips from rfl]
    rw [hs]
    simp [atr_init]
  · rw [show (assemble_cv (atr_scan E chain.utxoset pruned_block.transactions
        atr_init)).total_rebroadcast_nolan =
      (atr_scan E chain.utxoset pruned_block.transactions atr_init).nolan from rfl]
    rw [hn]
    simp [atr_init]
  · rw [show (assemble_cv (atr_scan E chain.utxoset pruned_block.transactions
        atr_init)).total_rebroadcast_fees_nolan =
      (atr_scan E chain.utxoset pruned_block.transactions atr_init).fees from rfl]
    rw [hf]
    simp [atr_init]

/-- Claim C4: for a block beyond id 2 whose longest-chain predecessor two
    behind is indexed, generate_data_to_validate emits exactly one
    rebroadcast transaction per spendable output strictly above the
    200 000 000 nolan fee (adding its amount to the rebroadcast nolan, the
    flat fee to the rebroadcast fees and one to the slip count), and
    collects every other spendable output — equality with the fee included
    — as dust into the rebroadcast fees without emitting a transaction. -/
theorem c4_atr_rebroadcast_rule (E : ExtFns) (chain : Chain) (self pruned_block : Block)
    (h2 : 2 < self.id)
    (hp : lookupBlock chain (chain.blockring (self.id - 2)) = some pruned_block) :
    (generate_data_to_validate E chain self).rebroadcasts =
      ((atr_pairs chain.utxoset pruned_block.transactions).map fun p =>
        generate_rebroadcast_transaction E p.1 p.2 200000000) ∧
    (generate_data_to_validate E chain self).total_rebroadcast_slips =
      (atr_pairs chain.utxoset pruned_block.transactions).length ∧
    (generate_data_to_validate E chain self).total_rebroadcast_nolan =
      ((atr_pairs chain.utxoset pruned_block.transactions).map fun p => p.2.amount).sum ∧
    (generate_data_to_validate E chain self).total_rebroadcast_fees_nolan =
      200000000 * (atr_pairs chain.utxoset pruned_block.transactions).length +
        (dust_amounts chain.utxoset pruned_block.transactions).sum :=
  gdtv_atr_fields E chain self pruned_block h2 hp

/-- Witness for C4 at a concrete chain whose pruned block carries one
    spendable large output, one spendable dust output and one unspendable
    output. -/
theorem c4_atr_rebroadcast_witness :
    2 < selfC4.id ∧
    lookupBlock chainC4 (chainC4.blockring (selfC4.id - 2)) = some prunedC4 ∧
    ((generate_data_to_validate E0 chainC4 selfC4).rebroadcasts =
      ((atr_pairs chainC4.utxoset prunedC4.transactions).map fun p =>
        generate_rebroadcast_transaction E0 p.1 p.2 200000000) ∧
    (generate_data_to_validate E0 chainC4 selfC4).total_rebroadcast_slips =
      (atr_pairs chainC4.utxoset prunedC4.transactions).length ∧
    (generate_data_to_validate E0 chainC4 selfC4).total_rebroadcast_nolan =
      ((atr_pairs chainC4.utxoset prunedC4.transactions).map fun p => p.2.amount).sum ∧
    (generate_data_to_validate E0 chainC4 selfC4).total_rebroadcast_fees_nolan =
      200000000 * (atr_pairs chainC4.utxoset prunedC4.transactions).length +
        (dust_amounts chainC4.utxoset prunedC4.transactions).sum) :=
  ⟨by decide, by decide,
    c4_atr_rebroadcast_rule E0 chainC4 selfC4 prunedC4 (by decide) (by decide)⟩

/-- Filtering by spendability and an amount test commutes with projecting
    the amounts. -/
theorem map_amount_filter_and (u : Utxoset) (p : Nat → Bool) :
    ∀ outs : List Slip,
      ((outs.filter fun o => Slip.validate u o && p o.amount).map Slip.amount) =
        ((outs.filter fun o => Slip.validate u o).map Slip.amount).filter p := by
  intro outs
  induction outs with
  | nil => rfl
  | cons o rest ih =>
    by_cases hv : Slip.validate u o
    · by_cases hp : p o.amount = true
      · simp [List.filter_cons, hv, hp, ih]
      · simp [List.filter_cons, hv, hp, ih]
    · simp [List.filter_cons, hv, ih]

/-- Amounts of the rebroadcast pairs are the spendable amounts above the
    fee. -/
theorem atr_pairs_amounts (u : Utxoset) :
    ∀ txs : List Tx,
      ((atr_pairs u txs).map fun p => p.2.amount) =
        (spendable_amounts u txs).filter fun a => decide (200000000 < a) := by
  intro txs
  induction txs with
  | nil => rfl
  | cons tx rest ih =>
    have hcomp : ((fun (p : Tx × Slip) => p.2.amount) ∘ fun o => (tx, o)) = Slip.amount :=
      rfl
    simp only [atr_pairs, spendable_amounts, List.map_append, List.map_map, hcomp,
      List.filter_append, ih, big_outputs]
    rw [map_amount_filter_and u (fun a => decide (200000000 < a)) tx.outputs]

/-- Dust amounts are the spendable amounts at or below the fee. -/
theorem dust_amounts_eq (u : Utxoset) :
    ∀ txs : List Tx,
      dust_amounts u txs =
        (spendable_amounts u txs).filter fun a => decide (a ≤ 200000000) := by
  intro txs
  induction txs with
  | nil => rfl
  | cons tx rest ih =>
    simp only [dust_amounts, spendable_amounts, List.filter_append, ih, dust_outputs]
    rw [map_amount_filter_and u (fun a => decide (a ≤ 200000000)) tx.outputs]

/-- Claim C5 (amended): when the pruned block's spendable outputs carry
    exactly 200 000 000 and 199 999 999 nolan, the ATR computation emits
    no rebroadcast at all — an amount equal to the fee is dust — and
    collects both amounts as rebroadcast fees. -/
theorem c5_atr_dust_amended (E : ExtFns) (chain : Chain) (self pruned_block : Block)
    (h2 : 2 < self.id)
    (hp : lookupBlock chain (chain.blockring (self.id - 2)) = some pruned_block)
    (hs : spendable_amounts chain.utxoset pruned_block.transactions =
      [200000000, 199999999]) :
    (generate_data_to_validate E chain self).rebroadcasts = [] ∧
    (generate_data_to_validate E chain self).total_rebroadcast_fees_nolan =
      200000000 + 199999999 := by
  obtain ⟨hr, hsl, hn, hf⟩ := gdtv_atr_fields E chain self pruned_block h2 hp
  have hpa := atr_pairs_amounts chain.utxoset pruned_block.transactions
  rw [hs] at hpa
  have hempty : atr_pairs chain.utxoset pruned_block.transactions = [] := by
    have hlen := congrArg List.length hpa
    simp at hlen
    exact hlen
  have hda := dust_amounts_eq chain.utxoset pruned_block.transactions
  rw [hs] at hda
  constructor
  · rw [hr, hempty]
    rfl
  · rw [hf, hempty, hda]
    simp

/-- Witness for the amended C5 at the concrete dust chain. -/
theorem c5_atr_dust_amended_witness :
    2 < selfC5.id ∧
    lookupBlock chainC5 (chainC5.blockring (selfC5.id - 2)) = some prunedC5 ∧
    spendable_amounts chainC5.utxoset prunedC5.transactions =
      [200000000, 199999999] ∧
    ((generate_data_to_validate E0 chainC5 selfC5).rebroadcasts = [] ∧
     (generate_data_to_validate E0 chainC5 selfC5).total_rebroadcast_fees_nolan =
       200000000 + 199999999) :=
  ⟨by decide, by decide, by decide,
    c5_atr_dust_amended E0 chainC5 selfC5 prunedC5 (by decide) (by decide) (by decide)⟩

/-- Re-typing slips does not change the sum of their amounts. -/
theorem sumAmounts_map_retype (l : List Slip) :
    sumAmounts (l.map fun s => { s with slip_type := SlipType.StakerOutput }) =
      sumAmounts l := by
  unfold sumAmounts
  rw [List.map_map]
  rfl

/-- Stakers after a reset of a non-empty merged pool are the merged pool
    under the per-staker payout map. -/
theorem reset_staker_table_stakers_eq (st : Staking) (T : Nat)
    (h : merged st ≠ []) :
    (reset_staker_table st T).1.stakers =
      (merged st).map (reset_payout_slip T (merged st)) := by
  have hlen : ¬ (st.stakers ++ st.pending ++ st.deposits).length = 0 := by
    simp only [List.length_eq_zero]
    exact h
  simp only [reset_staker_table]
  rw [if_neg hlen]
  simp only [List.map_map, sumAmounts_map_retype, List.length_map]
  rfl

/-- Sum of a pointwise-added pair of maps splits into two sums. -/
theorem sum_map_add {α : Type} (f g : α → Nat) (l : List α) :
    (l.map fun x => f x + g x).sum = (l.map f).sum + (l.map g).sum := by
  induction l with
  | nil => rfl
  | cons x xs ih =>
    simp only [List.map_cons, List.sum_cons, ih]
    omega

/-- Claim C6 (amended): the sum of staker amounts after a reset of a
    non-empty merged pool exceeds the previous sum by exactly the sum of
    the individual integer-division payouts — a quantity that can deviate
    from the treasury share by far more than one nolan. -/
theorem c6_reset_sum_amended (st : Staking) (T : Nat) (h : merged st ≠ []) :
    sumAmounts (reset_staker_table st T).1.stakers =
      sumAmounts (merged st) +
        ((merged st).map fun s =>
          s.amount * ((T / GENESIS_PERIOD) / (merged st).length) /
            (sumAmounts (merged st) / (merged st).length)).sum := by
  rw [reset_staker_table_stakers_eq st T h]
  unfold sumAmounts
  rw [List.map_map]
  have hcomp : (Slip.amount ∘ reset_payout_slip T (merged st)) =
      fun s => s.amount + s.amount * ((T / GENESIS_PERIOD) / (merged st).length) /
        (sumAmounts (merged st) / (merged st).length) := rfl
  rw [hcomp]
  rw [sum_map_add Slip.amount
    (fun s => s.amount * ((T / GENESIS_PERIOD) / (merged st).length) /
      (sumAmounts (merged st) / (merged st).length)) (merged st)]
  rfl

/-- Witness for the amended C6 at the concrete three-deposit pool. -/
theorem c6_reset_sum_amended_witness :
    merged stC6 ≠ [] ∧
    sumAmounts (reset_staker_table stC6 1000000000).1.stakers =
      sumAmounts (merged stC6) +
        ((merged stC6).map fun s =>
          s.amount * ((1000000000 / GENESIS_PERIOD) / (merged stC6).length) /
            (sumAmounts (merged stC6) / (merged stC6).length)).sum :=
  ⟨by decide, c6_reset_sum_amended stC6 1000000000 (by decide)⟩

/-- Claim C7: on a non-empty merged pool, reset_staker_table maps every
    staker to its original amount plus amount times the average payout
    (the treasury share per block divided by the pool size) divided by the
    average stake, with integer division throughout, re-typed as a staker
    output; and the spec's concrete scenario — deposits of 2e8 to 6e8
    nolan with treasury 1e9 — yields the expected amounts. -/
theorem c7_reset_staker_table_payout :
    (∀ (st : Staking) (T : Nat), merged st ≠ [] →
      (reset_staker_table st T).1.stakers =
        (merged st).map (reset_payout_slip T (merged st))) ∧
    ((reset_staker_table stC7 1000000000).1.stakers.map Slip.amount =
      [210000000, 315000000, 420000000, 525000000, 630000000]) ∧
    (∀ s ∈ (reset_staker_table stC7 1000000000).1.stakers,
      s.slip_type = SlipType.StakerOutput) :=
  ⟨reset_staker_table_stakers_eq, by decide, by decide⟩

/-- Witness for C7 applying the universal part at the concrete pool. -/
theorem c7_reset_staker_table_witness :
    merged stC7 ≠ [] ∧
    (reset_staker_table stC7 1000000000).1.stakers =
      (merged stC7).map (reset_payout_slip 1000000000 (merged stC7)) :=
  ⟨by decide, c7_reset_staker_table_payout.1 stC7 1000000000 (by decide)⟩
